import Mathlib

/-!
Shallow embedding of the TaskPro task-manager application (`src/App.tsx`).

Tasks carry an identifier, title, description, due date, completion flag,
priority, label references and a creation timestamp.  Due dates are calendar
dates compared at local-day granularity, so they are modelled as day numbers
(`Nat`); the current day at evaluation time is passed explicitly as `nowDay`.
Strings are modelled by Lean `String`, JS `String.prototype.toLowerCase` by
mapping `Char.toLower` over the character list and `String.prototype.includes`
by contiguous-sublist containment of the character lists.
-/

namespace TaskPro

/-- Priority enum of a task (`types.ts` is not among the sources; the spec
says "enumerated: low/medium/high or similar"). -/
inductive Priority where
  | low
  | medium
  | high
deriving DecidableEq, Repr

/-- A task, as described by the spec data model and as used by `App.tsx`:
identifier, title, description, due date (calendar day), completed flag,
priority, label-identifier references, creation timestamp. -/
structure Task where
  id : String
  title : String
  description : String
  dueDate : Nat
  completed : Bool
  priority : Priority
  labelIds : List String
  createdAt : String
deriving DecidableEq, Repr

/-- A label: identifier, display name, color. -/
structure Label where
  id : String
  name : String
  color : String
deriving DecidableEq, Repr

/-- The `TimeRange` tokens accepted by the range filter. -/
inductive TimeRange where
  | past
  | today
  | tomorrow
  | upcoming
  | all
deriving DecidableEq, Repr

/-- JS `String.prototype.toLowerCase`, modelled on the character list of the
string (`Char.toLower` lowers each character). -/
def jsToLower (s : String) : List Char :=
  s.toList.map Char.toLower

/-- JS `hay.includes(needle)`: `needle` occurs contiguously inside `hay`. -/
def jsIncludes (hay needle : List Char) : Bool :=
  decide (needle <:+: hay)

/-- Modelled from the spec: `utils/dateUtils.ts` is not among the sources.
Spec section 4.1: "past" = the calendar day of the due date is strictly
before the current calendar day. -/
def isPast (due nowDay : Nat) : Bool := due < nowDay

/-- Modelled from the spec: `utils/dateUtils.ts` is not among the sources.
Spec section 4.1: "today" = the calendar day of the due date equals the
current calendar day. -/
def isToday (due nowDay : Nat) : Bool := due = nowDay

/-- Modelled from the spec: `utils/dateUtils.ts` is not among the sources.
Spec section 4.1: "tomorrow" = the calendar day of the due date equals the
current calendar day plus one. -/
def isTomorrow (due nowDay : Nat) : Bool := due = nowDay + 1

/-- The "upcoming" classification used at `App.tsx` lines 53 and 72:
not past, not today and not tomorrow. -/
def isUpcoming (due nowDay : Nat) : Bool :=
  !isPast due nowDay && !isToday due nowDay && !isTomorrow due nowDay

/-- The search predicate of `filteredTasks` (`App.tsx` lines 59-63): the
lower-cased query occurs in the lower-cased title or description. -/
def matchesSearch (query : String) (t : Task) : Bool :=
  let titleLower := jsToLower t.title
  let descLower := jsToLower t.description
  let queryLower := jsToLower query
  jsIncludes titleLower queryLower || jsIncludes descLower queryLower

/-- The `switch (activeRange)` of `App.tsx` lines 68-74.  The `all` token is
returned `true` before the switch is reached (line 66); the `default` branch
is unreachable for the five tokens. -/
def rangeMatches (r : TimeRange) (nowDay : Nat) (t : Task) : Bool :=
  match r with
  | .today => isToday t.dueDate nowDay
  | .tomorrow => isTomorrow t.dueDate nowDay
  | .past => isPast t.dueDate nowDay
  | .upcoming => isUpcoming t.dueDate nowDay
  | .all => true

/-- The filter callback of `filteredTasks` (`App.tsx` lines 58-74). -/
def filterPred (query : String) (r : TimeRange) (nowDay : Nat) (t : Task) : Bool :=
  if !matchesSearch query t then false
  else if r = .all then true
  else rangeMatches r nowDay t

/-- The sort comparator of `filteredTasks` (`App.tsx` lines 75-78) as a
boolean "may come before" relation: the comparator returns a nonpositive
number on `(a, b)` iff `a` keeps an incomplete task before a completed one,
and orders tasks of equal completion by ascending due date. -/
def taskLE (a b : Task) : Bool :=
  if a.completed != b.completed then !a.completed
  else a.dueDate ≤ b.dueDate

/-- Derivation `filteredTasks` (`App.tsx` lines 57-79): filter by search and range,
then sort (stable) by the two-key comparator. -/
def filteredTasks (tasks : List Task) (query : String) (r : TimeRange)
    (nowDay : Nat) : List Task :=
  (tasks.filter (filterPred query r nowDay)).mergeSort taskLE

/-- The four derived counts (`App.tsx` lines 48-55). -/
structure Stats where
  past : Nat
  today : Nat
  tomorrow : Nat
  upcoming : Nat
deriving DecidableEq, Repr

/-- Derivation `stats` (`App.tsx` lines 48-55): four counts over non-completed tasks. -/
def stats (tasks : List Task) (nowDay : Nat) : Stats where
  past := (tasks.filter fun t => isPast t.dueDate nowDay && !t.completed).length
  today := (tasks.filter fun t => isToday t.dueDate nowDay && !t.completed).length
  tomorrow := (tasks.filter fun t => isTomorrow t.dueDate nowDay && !t.completed).length
  upcoming := (tasks.filter fun t => isUpcoming t.dueDate nowDay && !t.completed).length

/-- The `Partial<Task>` update record: every field optional; an absent field does not override
in the spread `{ ...t, ...updates }`. -/
structure PartialTask where
  id : Option String
  title : Option String
  description : Option String
  dueDate : Option Nat
  completed : Option Bool
  priority : Option Priority
  labelIds : Option (List String)
  createdAt : Option String
deriving DecidableEq, Repr

/-- The empty partial update (no field present). -/
def PartialTask.empty : PartialTask :=
  ⟨Option.none, Option.none, Option.none, Option.none,
   Option.none, Option.none, Option.none, Option.none⟩

/-- JS object spread `{ ...t, ...u }`: fields present in `u` override `t`. -/
def applyUpdates (u : PartialTask) (t : Task) : Task where
  id := u.id.getD t.id
  title := u.title.getD t.title
  description := u.description.getD t.description
  dueDate := u.dueDate.getD t.dueDate
  completed := u.completed.getD t.completed
  priority := u.priority.getD t.priority
  labelIds := u.labelIds.getD t.labelIds
  createdAt := u.createdAt.getD t.createdAt

/-- Function `updateTask` (`App.tsx` lines 81-83): map over the list, replacing the
tasks whose id matches by the spread-updated task. -/
def updateTask (i : String) (u : PartialTask) (tasks : List Task) : List Task :=
  tasks.map fun t => if t.id = i then applyUpdates u t else t

/-- The creation branch of `saveTask` (`App.tsx` lines 88-99).  `newId` is
the value of `Math.random().toString(36).substr(2, 9)`, `nowDay` the current
calendar day returned by `getLocalDateString()` and `createdAtNow` the ISO
timestamp of `new Date().toISOString()`; all three are outputs of the
environment and are passed explicitly.  JS `x || d` on the optional string
fields yields `d` exactly when the field is absent or empty, which on the
string fields coincides with `Option.getD` because the default is `""`
itself. -/
def saveTaskNew (newId : String) (u : PartialTask) (nowDay : Nat)
    (createdAtNow : String) (tasks : List Task) : List Task :=
  { id := newId
    title := u.title.getD ""
    description := u.description.getD ""
    dueDate := u.dueDate.getD nowDay
    completed := false
    priority := u.priority.getD Priority.medium
    labelIds := u.labelIds.getD []
    createdAt := createdAtNow } :: tasks

/-- The `LabelManager` `onAdd` handler (`App.tsx` line 264): append a label
whose id is the template string `l-${Date.now()}`; `nowMs` is the value of
`Date.now()`, passed explicitly. -/
def addLabel (nowMs : Nat) (name color : String) (labels : List Label) : List Label :=
  labels ++ [{ id := "l-" ++ toString nowMs, name := name, color := color }]

/-- The application state touched by the label handlers: the task list and
the label list. -/
structure AppState where
  tasks : List Task
  labels : List Label
deriving DecidableEq, Repr

/-- The `LabelManager` `onDelete` handler (`App.tsx` line 265): only the
label list is written, filtered by `l.id !== id`. -/
def onDeleteLabel (i : String) (s : AppState) : AppState :=
  { s with labels := s.labels.filter fun l => l.id != i }

/-- Task-identifier uniqueness (spec section 3 invariant). -/
abbrev uniqueTaskIds (tasks : List Task) : Prop := (tasks.map Task.id).Nodup

/-- Label-identifier uniqueness (spec section 3 invariant). -/
abbrev uniqueLabelIds (labels : List Label) : Prop := (labels.map Label.id).Nodup

/-- JSON values, the abstract form of the strings exchanged with
`localStorage` by `JSON.stringify` / `JSON.parse` (`App.tsx` lines 14-30
and 40-46). -/
inductive Json where
  | jnull
  | jbool (b : Bool)
  | jnum (n : Int)
  | jstr (s : String)
  | jarr (elems : List Json)
  | jobj (fields : List (String × Json))

/-- Read a JSON string. -/
def Json.asStr : Json → Option String
  | .jstr s => some s
  | _ => none

/-- Read a JSON boolean. -/
def Json.asBool : Json → Option Bool
  | .jbool b => some b
  | _ => none

/-- Read a nonnegative JSON number as a day count. -/
def Json.asNat : Json → Option Nat
  | .jnum (Int.ofNat n) => some n
  | _ => none

/-- Parse every element of a list, failing if any element fails. -/
def mapOption (f : α → Option β) : List α → Option (List β)
  | [] => some []
  | x :: xs =>
    match f x, mapOption f xs with
    | some y, some ys => some (y :: ys)
    | _, _ => none

/-- Read a JSON array of strings. -/
def Json.asStrList : Json → Option (List String)
  | .jarr xs => mapOption Json.asStr xs
  | _ => none

/-- The serialized form of a priority. -/
def Priority.toStr : Priority → String
  | .low => "low"
  | .medium => "medium"
  | .high => "high"

/-- Parse a serialized priority. -/
def priorityOfStr (s : String) : Option Priority :=
  if s = "low" then some .low
  else if s = "medium" then some .medium
  else if s = "high" then some .high
  else none

/-- Read a serialized priority. -/
def Json.asPriority (j : Json) : Option Priority :=
  (Json.asStr j).bind priorityOfStr

/-- Serialization of one task (`JSON.stringify`), at the JSON-value level. -/
def encodeTask (t : Task) : Json :=
  .jobj [("id", .jstr t.id), ("title", .jstr t.title),
         ("description", .jstr t.description), ("dueDate", .jnum t.dueDate),
         ("completed", .jbool t.completed),
         ("priority", .jstr t.priority.toStr),
         ("labelIds", .jarr (t.labelIds.map Json.jstr)),
         ("createdAt", .jstr t.createdAt)]

/-- Deserialization of one task (`JSON.parse`), at the JSON-value level: read
each field of the object back into the task record. -/
def decodeTask (j : Json) : Option Task :=
  match j with
  | .jobj fields =>
    match (fields.lookup "id").bind Json.asStr,
          (fields.lookup "title").bind Json.asStr,
          (fields.lookup "description").bind Json.asStr,
          (fields.lookup "dueDate").bind Json.asNat,
          (fields.lookup "completed").bind Json.asBool,
          (fields.lookup "priority").bind Json.asPriority,
          (fields.lookup "labelIds").bind Json.asStrList,
          (fields.lookup "createdAt").bind Json.asStr with
    | some i, some ti, some de, some du, some co, some pr, some la, some cr =>
      some { id := i, title := ti, description := de, dueDate := du,
             completed := co, priority := pr, labelIds := la, createdAt := cr }
    | _, _, _, _, _, _, _, _ => none
  | _ => none

/-- Serialization of one label. -/
def encodeLabel (l : Label) : Json :=
  .jobj [("id", .jstr l.id), ("name", .jstr l.name), ("color", .jstr l.color)]

/-- Deserialization of one label. -/
def decodeLabel (j : Json) : Option Label :=
  match j with
  | .jobj fields =>
    match (fields.lookup "id").bind Json.asStr,
          (fields.lookup "name").bind Json.asStr,
          (fields.lookup "color").bind Json.asStr with
    | some i, some n, some c => some { id := i, name := n, color := c }
    | _, _, _ => none
  | _ => none

/-- Serialization of the whole task list (`JSON.stringify(tasks)`,
`App.tsx` line 41). -/
def encodeTasks (ts : List Task) : Json := .jarr (ts.map encodeTask)

/-- Deserialization of the whole task list (`JSON.parse(saved)`,
`App.tsx` line 17). -/
def decodeTasks : Json → Option (List Task)
  | .jarr xs => mapOption decodeTask xs
  | _ => none

/-- Serialization of the whole label list (`JSON.stringify(labels)`,
`App.tsx` line 45). -/
def encodeLabels (ls : List Label) : Json := .jarr (ls.map encodeLabel)

/-- Deserialization of the whole label list (`JSON.parse(saved)`,
`App.tsx` line 26). -/
def decodeLabels : Json → Option (List Label)
  | .jarr xs => mapOption decodeLabel xs
  | _ => none

/-- Modelled from the spec: `constants.tsx` is not among the sources.  The
built-in default seed data for tasks ("built-in default seed data",
spec section 6); the claims do not depend on its contents. -/
def INITIAL_TASKS : List Task :=
  [{ id := "seed-task-1", title := "Welcome", description := "First task",
     dueDate := 1, completed := false, priority := Priority.medium,
     labelIds := ["seed-label-1"], createdAt := "2024-01-01T00:00:00.000Z" }]

/-- Modelled from the spec: `constants.tsx` is not among the sources.  The
built-in default seed data for labels. -/
def INITIAL_LABELS : List Label :=
  [{ id := "seed-label-1", name := "Work", color := "indigo" }]

/-- Outcome of reading one `localStorage` entry on startup: the entry is
absent (`getItem` returned `null`, or the empty string, which the truthiness
test of `saved ? ... : ...` also sends to the default), or present but
`JSON.parse` threw, or present and parsed to a value. -/
inductive ReadResult (α : Type) where
  | absent
  | malformed
  | value (v : α)

/-- The `useState` initializer pattern of `App.tsx` lines 14-30: the parsed
stored value when the read succeeds, the default seed otherwise.  The
`try`/`catch` swallows the parse failure, so the result type carries no
error case. -/
def initState (dflt : α) (r : ReadResult α) : α :=
  match r with
  | .absent => dflt
  | .malformed => dflt
  | .value v => v

/-- The tasks initializer (`App.tsx` lines 14-21). -/
def initTasks (r : ReadResult (List Task)) : List Task :=
  initState INITIAL_TASKS r

/-- The labels initializer (`App.tsx` lines 23-30). -/
def initLabels (r : ReadResult (List Label)) : List Label :=
  initState INITIAL_LABELS r

/-- Spec-side definition (spec section 4.1, item 2, with no query): the
range-filtered task list, sorted by the two-key comparator, with no search
restriction. -/
def sortedRangeFiltered (tasks : List Task) (r : TimeRange) (nowDay : Nat) :
    List Task :=
  (tasks.filter fun t => decide (r = TimeRange.all) || rangeMatches r nowDay t).mergeSort taskLE

/-- A concrete task used to instantiate universally quantified theorems. -/
def sampleTask : Task :=
  { id := "k7f2m9qwe", title := "Report", description := "Quarterly numbers",
    dueDate := 3, completed := false, priority := Priority.high,
    labelIds := ["seed-label-1"], createdAt := "2024-01-03T00:00:00.000Z" }

/-- A concrete application state used to instantiate theorems. -/
def sampleState : AppState :=
  { tasks := INITIAL_TASKS, labels := INITIAL_LABELS }

lemma matchesSearch_iff (query : String) (t : Task) :
    matchesSearch query t = true ↔
      (jsToLower query <:+: jsToLower t.title ∨
       jsToLower query <:+: jsToLower t.description) := by
  simp [matchesSearch, jsIncludes]

lemma filterPred_iff (query : String) (r : TimeRange) (nowDay : Nat) (t : Task) :
    filterPred query r nowDay t = true ↔
      (matchesSearch query t = true ∧
       (r = TimeRange.all ∨ rangeMatches r nowDay t = true)) := by
  by_cases hm : matchesSearch query t
  · by_cases hr : r = TimeRange.all
    · subst hr; simp [filterPred, hm, rangeMatches]
    · simp [filterPred, hm, hr]
  · simp [filterPred, hm]

/-- Claim C1: a task is in the filtered list exactly when it is in the task
list, its lower-cased title or description contains the lower-cased query as
a contiguous substring, and either the active range is `all` or its due date
satisfies the selected range predicate. -/
theorem mem_filteredTasks_iff (tasks : List Task) (query : String)
    (r : TimeRange) (nowDay : Nat) (t : Task) :
    t ∈ filteredTasks tasks query r nowDay ↔
      t ∈ tasks ∧
      (jsToLower query <:+: jsToLower t.title ∨
       jsToLower query <:+: jsToLower t.description) ∧
      (r = TimeRange.all ∨ rangeMatches r nowDay t = true) := by
  unfold filteredTasks
  rw [List.mem_mergeSort, List.mem_filter, filterPred_iff, matchesSearch_iff]

/-- Claim C1 instance: a concrete task is in its own filtered list. -/
theorem mem_filteredTasks_iff_inst :
    sampleTask ∈ filteredTasks [sampleTask] "" TimeRange.all 5 :=
  (mem_filteredTasks_iff [sampleTask] "" TimeRange.all 5 sampleTask).mpr
    ⟨by decide, Or.inl (by decide), Or.inl rfl⟩

/-- Claim C2: the derived stats are exactly the four counts of non-completed
tasks due strictly before today, due today, due tomorrow, and due strictly
later than tomorrow. -/
theorem stats_counts (tasks : List Task) (nowDay : Nat) :
    (stats tasks nowDay).past =
      (tasks.filter fun t => decide (t.dueDate < nowDay ∧ t.completed = false)).length ∧
    (stats tasks nowDay).today =
      (tasks.filter fun t => decide (t.dueDate = nowDay ∧ t.completed = false)).length ∧
    (stats tasks nowDay).tomorrow =
      (tasks.filter fun t => decide (t.dueDate = nowDay + 1 ∧ t.completed = false)).length ∧
    (stats tasks nowDay).upcoming =
      (tasks.filter fun t => decide (nowDay + 1 < t.dueDate ∧ t.completed = false)).length := by
  refine ⟨?_, ?_, ?_, ?_⟩ <;>
  · dsimp only [stats]
    congr 1
    apply List.filter_congr
    intro t _
    rw [Bool.eq_iff_iff]
    cases hc : t.completed <;>
      simp [isPast, isToday, isTomorrow, isUpcoming, hc] <;> omega

/-- Claim C2 instance: the past count of a concrete list. -/
theorem stats_counts_inst :
    (stats [sampleTask] 5).past =
      (([sampleTask]).filter fun t =>
        decide (t.dueDate < 5 ∧ t.completed = false)).length :=
  (stats_counts [sampleTask] 5).1

/-- Claim C4: relative to a fixed current day, every due date satisfies
exactly one of the four range predicates, and the complement-shaped
"upcoming" predicate holds exactly on due dates strictly later than
tomorrow. -/
theorem rangeBuckets_partition (due nowDay : Nat) :
    (isPast due nowDay = true ∨ isToday due nowDay = true ∨
     isTomorrow due nowDay = true ∨ isUpcoming due nowDay = true) ∧
    ¬(isPast due nowDay = true ∧ isToday due nowDay = true) ∧
    ¬(isPast due nowDay = true ∧ isTomorrow due nowDay = true) ∧
    ¬(isPast due nowDay = true ∧ isUpcoming due nowDay = true) ∧
    ¬(isToday due nowDay = true ∧ isTomorrow due nowDay = true) ∧
    ¬(isToday due nowDay = true ∧ isUpcoming due nowDay = true) ∧
    ¬(isTomorrow due nowDay = true ∧ isUpcoming due nowDay = true) ∧
    (isUpcoming due nowDay = true ↔ nowDay + 1 < due) := by
  have hp : isPast due nowDay = true ↔ due < nowDay := by simp [isPast]
  have ht : isToday due nowDay = true ↔ due = nowDay := by simp [isToday]
  have htm : isTomorrow due nowDay = true ↔ due = nowDay + 1 := by
    simp [isTomorrow]
  have hu : isUpcoming due nowDay = true ↔ nowDay + 1 < due := by
    simp [isUpcoming, isPast, isToday, isTomorrow]
    omega
  rw [hp, ht, htm, hu]
  omega

/-- Claim C4 instance: a due date two days out is classified upcoming. -/
theorem rangeBuckets_partition_inst : isUpcoming 9 5 = true :=
  (rangeBuckets_partition 9 5).2.2.2.2.2.2.2.mpr (by decide)

/-- Claim C7: on startup, an absent or unparsable stored entry yields the
built-in seed data, and a parsed stored entry yields the parsed value;
the initializer is total, with no error case. -/
theorem init_fallback :
    initTasks ReadResult.absent = INITIAL_TASKS ∧
    initTasks ReadResult.malformed = INITIAL_TASKS ∧
    (∀ ts : List Task, initTasks (ReadResult.value ts) = ts) ∧
    initLabels ReadResult.absent = INITIAL_LABELS ∧
    initLabels ReadResult.malformed = INITIAL_LABELS ∧
    (∀ ls : List Label, initLabels (ReadResult.value ls) = ls) :=
  ⟨rfl, rfl, fun _ => rfl, rfl, rfl, fun _ => rfl⟩

/-- Claim C7 instance: the absent case yields the seed tasks. -/
theorem init_fallback_inst : initTasks ReadResult.absent = INITIAL_TASKS :=
  init_fallback.1

/-- Claim C8: deleting a label leaves the task list identical (so any
dangling label reference inside a task is retained), and the resulting label
set keeps exactly the labels whose identifier differs from the deleted
one. -/
theorem onDeleteLabel_frame (lid : String) (s : AppState) :
    (onDeleteLabel lid s).tasks = s.tasks ∧
    (∀ l : Label, l ∈ (onDeleteLabel lid s).labels ↔
      l ∈ s.labels ∧ l.id ≠ lid) := by
  refine ⟨rfl, ?_⟩
  intro l
  simp [onDeleteLabel, List.mem_filter]

/-- Claim C8 instance: tasks survive a concrete label deletion unchanged. -/
theorem onDeleteLabel_frame_inst :
    (onDeleteLabel "seed-label-1" sampleState).tasks = sampleState.tasks :=
  (onDeleteLabel_frame "seed-label-1" sampleState).1

/-- Claim C9: with the empty query the search predicate accepts every task,
and the filtered list is exactly the sorted range-filtered list. -/
theorem filteredTasks_empty_query (tasks : List Task) (r : TimeRange)
    (nowDay : Nat) :
    (∀ t : Task, matchesSearch "" t = true) ∧
    filteredTasks tasks "" r nowDay = sortedRangeFiltered tasks r nowDay := by
  have hnil : ∀ l : List Char, ([] : List Char) <:+: l := fun l => ⟨[], l, by simp⟩
  have hm : ∀ t : Task, matchesSearch "" t = true := by
    intro t
    have h0 : jsToLower "" = ([] : List Char) := rfl
    simp [matchesSearch, jsIncludes, h0, hnil]
  refine ⟨hm, ?_⟩
  unfold filteredTasks sortedRangeFiltered
  congr 1
  apply List.filter_congr
  intro t _
  by_cases hr : r = TimeRange.all
  · subst hr; simp [filterPred, hm t, rangeMatches]
  · simp [filterPred, hm t, hr]

/-- Claim C9 instance: concrete equality of the two derivations. -/
theorem filteredTasks_empty_query_inst :
    filteredTasks [sampleTask] "" TimeRange.today 5 =
      sortedRangeFiltered [sampleTask] TimeRange.today 5 :=
  (filteredTasks_empty_query [sampleTask] TimeRange.today 5).2

lemma taskLE_total (a b : Task) : taskLE a b || taskLE b a := by
  unfold taskLE
  cases ha : a.completed <;> cases hb : b.completed <;> simp [ha, hb] <;> omega

lemma taskLE_trans (a b c : Task) : taskLE a b → taskLE b c → taskLE a c := by
  unfold taskLE
  cases ha : a.completed <;> cases hb : b.completed <;> cases hc : c.completed <;>
    simp [ha, hb, hc] <;> omega

/-- Claim C3: in the filtered output, a completed task is never followed by
an incomplete one, and tasks of equal completion status appear in ascending
due-date order. -/
theorem filteredTasks_ordered (tasks : List Task) (query : String)
    (r : TimeRange) (nowDay : Nat) :
    (filteredTasks tasks query r nowDay).Pairwise
      (fun a b => (a.completed = true → b.completed = true) ∧
        (a.completed = b.completed → a.dueDate ≤ b.dueDate)) := by
  have h := List.sorted_mergeSort taskLE_trans taskLE_total
    (tasks.filter (filterPred query r nowDay))
  refine List.Pairwise.imp ?_ h
  intro a b hab
  unfold taskLE at hab
  cases ha : a.completed <;> cases hb : b.completed <;>
    simp [ha, hb] at hab ⊢ <;> omega

/-- Claim C3 instance: the order property on a concrete list. -/
theorem filteredTasks_ordered_inst :
    (filteredTasks [sampleTask] "" TimeRange.all 5).Pairwise
      (fun a b => (a.completed = true → b.completed = true) ∧
        (a.completed = b.completed → a.dueDate ≤ b.dueDate)) :=
  filteredTasks_ordered [sampleTask] "" TimeRange.all 5

/-- Claim C5 counterexample: creation does not deduplicate identifiers.  If
the randomly generated task id collides with an existing one, `saveTask`
produces a duplicate; two label additions in the same millisecond produce
the same `l-${Date.now()}` id. -/
theorem saveTask_id_collision :
    uniqueTaskIds [sampleTask] ∧
    ¬ uniqueTaskIds (saveTaskNew "k7f2m9qwe" PartialTask.empty 3 "" [sampleTask]) ∧
    uniqueLabelIds [] ∧
    ¬ uniqueLabelIds (addLabel 17 "Home" "emerald" (addLabel 17 "Work" "indigo" [])) := by
  decide

/-- Claim C5 (amended): creating a task or a label preserves identifier
uniqueness provided the freshly generated identifier differs from every
identifier already present. -/
theorem saveTask_addLabel_unique (newId : String) (u : PartialTask)
    (nowDay : Nat) (ca : String) (ts : List Task) (nowMs : Nat)
    (nm col : String) (ls : List Label)
    (h1 : newId ∉ ts.map Task.id) (h2 : uniqueTaskIds ts)
    (h3 : ("l-" ++ toString nowMs) ∉ ls.map Label.id) (h4 : uniqueLabelIds ls) :
    uniqueTaskIds (saveTaskNew newId u nowDay ca ts) ∧
    uniqueLabelIds (addLabel nowMs nm col ls) := by
  constructor
  · simp only [saveTaskNew, uniqueTaskIds, List.map_cons, List.nodup_cons]
    exact ⟨h1, h2⟩
  · have hmap : (addLabel nowMs nm col ls).map Label.id =
        ls.map Label.id ++ ["l-" ++ toString nowMs] := by
      simp [addLabel]
    show ((addLabel nowMs nm col ls).map Label.id).Nodup
    rw [hmap]
    refine List.Nodup.append h4 (List.nodup_singleton _) ?_
    intro x hx hxe
    simp only [List.mem_singleton] at hxe
    subst hxe
    exact h3 hx

/-- Claim C5 (amended) instance: a fresh id keeps both lists duplicate
free. -/
theorem saveTask_addLabel_unique_inst :
    uniqueTaskIds (saveTaskNew "p0q1r2s3t" PartialTask.empty 3 "" [sampleTask]) ∧
    uniqueLabelIds (addLabel 17 "Home" "emerald" INITIAL_LABELS) :=
  saveTask_addLabel_unique "p0q1r2s3t" PartialTask.empty 3 "" [sampleTask]
    17 "Home" "emerald" INITIAL_LABELS
    (by decide) (by decide) (by decide) (by decide)

lemma mapOption_asStr_map (ls : List String) :
    mapOption Json.asStr (ls.map Json.jstr) = some ls := by
  induction ls with
  | nil => rfl
  | cons h t ih => simp [mapOption, Json.asStr, ih]

lemma priorityOfStr_toStr (p : Priority) : priorityOfStr p.toStr = some p := by
  cases p <;> rfl

lemma decodeTask_encodeTask (t : Task) : decodeTask (encodeTask t) = some t := by
  cases t with
  | mk i ti de du co pr la cr =>
    simp [encodeTask, decodeTask, Json.asStr, Json.asNat, Json.asBool,
      Json.asPriority, Json.asStrList, priorityOfStr_toStr, mapOption_asStr_map,
      List.lookup]

lemma decodeLabel_encodeLabel (l : Label) :
    decodeLabel (encodeLabel l) = some l := by
  cases l with
  | mk i n c => simp [encodeLabel, decodeLabel, Json.asStr, List.lookup]

/-- Claim C6: serializing a task list or a label list and deserializing the
result yields the original list. -/
theorem persist_roundTrip :
    (∀ ts : List Task, decodeTasks (encodeTasks ts) = some ts) ∧
    (∀ ls : List Label, decodeLabels (encodeLabels ls) = some ls) := by
  constructor
  · intro ts
    unfold decodeTasks encodeTasks
    induction ts with
    | nil => rfl
    | cons h t ih => simp_all [mapOption, decodeTask_encodeTask]
  · intro ls
    unfold decodeLabels encodeLabels
    induction ls with
    | nil => rfl
    | cons h t ih => simp_all [mapOption, decodeLabel_encodeLabel]

/-- Claim C6 instance: the seed task list round-trips. -/
theorem persist_roundTrip_inst :
    decodeTasks (encodeTasks INITIAL_TASKS) = some INITIAL_TASKS :=
  persist_roundTrip.1 INITIAL_TASKS

/-- Claim C10: `updateTask` preserves length and order, rewrites exactly the
positions whose task id matches (by the spread update), leaves every other
position untouched, returns the list identical when no id matches, and the
spread update leaves absent fields unchanged. -/
theorem updateTask_frame (i : String) (u : PartialTask) (ts : List Task) :
    (updateTask i u ts).length = ts.length ∧
    (∀ n : Nat, (updateTask i u ts)[n]? =
      (ts[n]?).map fun t => if t.id = i then applyUpdates u t else t) ∧
    ((∀ t ∈ ts, t.id ≠ i) → updateTask i u ts = ts) ∧
    (∀ t : Task,
      (u.id = none → (applyUpdates u t).id = t.id) ∧
      (u.title = none → (applyUpdates u t).title = t.title) ∧
      (u.description = none → (applyUpdates u t).description = t.description) ∧
      (u.dueDate = none → (applyUpdates u t).dueDate = t.dueDate) ∧
      (u.completed = none → (applyUpdates u t).completed = t.completed) ∧
      (u.priority = none → (applyUpdates u t).priority = t.priority) ∧
      (u.labelIds = none → (applyUpdates u t).labelIds = t.labelIds) ∧
      (u.createdAt = none → (applyUpdates u t).createdAt = t.createdAt)) := by
  refine ⟨?_, ?_, ?_, ?_⟩
  · simp [updateTask]
  · intro n; simp [updateTask]
  · intro h
    have hcongr : ∀ t ∈ ts, (if t.id = i then applyUpdates u t else t) = t := by
      intro t ht
      simp [h t ht]
    calc updateTask i u ts = ts.map (fun t => t) := List.map_congr_left hcongr
    _ = ts := by simp
  · intro t
    refine ⟨?_, ?_, ?_, ?_, ?_, ?_, ?_, ?_⟩ <;>
      (intro hu; simp [applyUpdates, hu])

/-- Claim C10 instance: an update keyed by an id absent from the list is the
identity. -/
theorem updateTask_frame_inst :
    updateTask "zzzzzzzzz" PartialTask.empty [sampleTask] = [sampleTask] :=
  (updateTask_frame "zzzzzzzzz" PartialTask.empty [sampleTask]).2.2.1 (by decide)

end TaskPro
